import Mathlib

/-!
A verification development for the oes-birger reverse-tunnel request router.

The Go sources are shallowly embedded: the controller's HTTP response state
machine (`service_server.go` / `controller.go`), the control-plane credential
endpoints (`cncserver`), the agent's command executor (`agent/command.go`) and
the cmdtool receive loop (`remote-command/main.go`) become pure Lean functions
over explicit state; channels become lists of delivered messages, with the end
of the list standing for the channel closing.
-/

namespace OesBirger

/-- Go byte slices are modelled as lists of naturals. -/
abbrev Bytes := List Nat

/-- The bytes of a string, as written by `fmt.Fprintf` with `%s`. -/
def strBytes (s : String) : Bytes := s.toUTF8.toList.map (fun b => b.toNat)

namespace Tunnel

/-- `tunnel.HttpHeader`: one header name with its values. -/
structure HttpHeader where
  name : String
  values : List String
deriving DecidableEq

/-- `tunnel.HttpResponse`: the initial response frame for one transaction. -/
structure HttpResponse where
  id : String
  status : Int
  headers : List HttpHeader
  contentLength : Int
deriving DecidableEq

/-- `tunnel.HttpChunkedResponse`: one body chunk; an empty body means EOF. -/
structure HttpChunkedResponse where
  id : String
  body : Bytes
deriving DecidableEq

/-- `tunnel.ChannelDirection`. -/
inductive ChannelDirection
  | STDIN
  | STDOUT
  | STDERR
deriving DecidableEq

/-- `tunnel.CommandRequest`. -/
structure CommandRequest where
  id : String
  name : String
  arguments : List String
  environment : List String
deriving DecidableEq

/-- `tunnel.CommandData`. -/
structure CommandData where
  id : String
  body : Bytes
  channel : ChannelDirection
  closed : Bool
deriving DecidableEq

/-- `tunnel.CommandTermination`. -/
structure CommandTermination where
  id : String
  exitCode : Int
  message : String
deriving DecidableEq

/-- The `oneof event` of `tunnel.AgentToControllerWrapper`.  The payloads of
`pingRequest` and `agentHello` are omitted: the handlers embedded here route
them to their `default` (ignore) branch and never read them.  `nilEvent` is a
wrapper whose `Event` field is nil (the `case nil` branch of the handlers). -/
inductive AgentToControllerEvent
  | pingRequest
  | httpResponse (resp : HttpResponse)
  | httpChunkedResponse (chunk : HttpChunkedResponse)
  | agentHello
  | commandData (d : CommandData)
  | commandTermination (t : CommandTermination)
  | nilEvent
deriving DecidableEq

end Tunnel

namespace Ca

/-- The certificate purposes of `pkg/ca` (spec: purpose is one of
agent, service, control). -/
inductive CertificatePurpose
  | agent
  | service
  | control
deriving DecidableEq

/-- `ca.CertificateName`: the structured CN parsed from a peer certificate,
with the fields used by the sources (`Agent`, `Type`, `Name`, `Purpose`). -/
structure CertificateName where
  agent : String
  type : String
  name : String
  purpose : CertificatePurpose
deriving DecidableEq

/-- Modelled from the spec: pkg/ca is not under src/, so an X.509 leaf is
abstracted to the result of parsing its CN: either invalid (AuthInvalid) or a
`CertificateName`. -/
inductive Cert
  | invalid
  | withName (names : CertificateName)
deriving DecidableEq

/-- Modelled from the spec: `ca.GetCertificateNameFromCert` (pkg/ca, not under
src/) parses the CN of a certificate into a `CertificateName`, failing with
`AuthInvalid` when the CN does not match the schema. -/
def GetCertificateNameFromCert : Cert → Except String CertificateName
  | .invalid => .error "AuthInvalid: CN schema mismatch"
  | .withName n => .ok n

/-- Modelled from the spec: `GenerateCertificate` (pkg/ca, not under src/)
issues a leaf certificate whose CN encodes the given structured name; by the
spec's cert round-trip law, parsing the issued certificate reconstructs the
same `(purpose, agentName, type, name)` tuple. -/
def GenerateCertificate (n : CertificateName) : Cert := .withName n

/-- Modelled from the spec: a service JWT abstracted to its verification
outcome; verification fails with `AuthInvalid` on an expired token, an unknown
`kid`, or a bad signature, and otherwise yields the `(type, name, agentName)`
claims. -/
inductive Token
  | invalid
  | valid (endpointType endpointName agentIdentity : String)
deriving DecidableEq

/-- Modelled from the spec: `ValidateJWT` (not under src/) returns the
`(endpointType, endpointName, agentIdentity)` claims of a valid token. -/
def ValidateJWT : Token → Except String (String × String × String)
  | .invalid => .error "AuthInvalid"
  | .valid t n a => .ok (t, n, a)

end Ca

namespace Controller

/-- A Go `http.Header`: an association list from header name to values.
Names are taken as already canonicalized. -/
abbrev Header := List (String × List String)

/-- `http.Header.Add`: append a value to the named entry, creating the entry
if absent. -/
def Header.add (h : Header) (name value : String) : Header :=
  if h.any (fun p => p.1 = name) then
    h.map (fun p => if p.1 = name then (p.1, p.2 ++ [value]) else p)
  else h ++ [(name, [value])]

/-- The names present in a header map. -/
def Header.names (h : Header) : List String := h.map (fun p => p.1)

/-- One observable action on a Go `http.ResponseWriter`. -/
inductive WriteEvent
  | header (status : Int)
  | write (body : Bytes)
  | flush
deriving DecidableEq

/-- A `net/http` response writer: the mutable header map, whether the status
line has been committed, the committed status and the snapshot of the header
map taken when it was committed, and the ordered trace of actions. -/
structure ResponseWriter where
  headerMap : Header
  wroteHeader : Bool
  sentStatus : Option Int
  sentHeaders : Option Header
  events : List WriteEvent
deriving DecidableEq

/-- A fresh response writer whose header map holds `h`. -/
def ResponseWriter.mk0 (h : Header) : ResponseWriter :=
  { headerMap := h, wroteHeader := false, sentStatus := none,
    sentHeaders := none, events := [] }

/-- `w.WriteHeader(code)` (net/http semantics): the first call commits the
status and a snapshot of the header map; later calls are superfluous and
ignored. -/
def ResponseWriter.writeHeader (w : ResponseWriter) (code : Int) : ResponseWriter :=
  if w.wroteHeader then w
  else { w with wroteHeader := true, sentStatus := some code,
                sentHeaders := some w.headerMap,
                events := w.events ++ [.header code] }

/-- `w.Write(b)` (net/http semantics): an implicit `WriteHeader(200)` when the
status has not been committed yet, then the bytes. -/
def ResponseWriter.write (w : ResponseWriter) (b : Bytes) : ResponseWriter :=
  let w2 := if w.wroteHeader then w else w.writeHeader 200
  { w2 with events := w2.events ++ [.write b] }

/-- `flusher.Flush()`. -/
def ResponseWriter.flush (w : ResponseWriter) : ResponseWriter :=
  { w with events := w.events ++ [.flush] }

/-- `w.Header().Add(name, value)`. -/
def ResponseWriter.addHeader (w : ResponseWriter) (name value : String) : ResponseWriter :=
  { w with headerMap := w.headerMap.add name value }

/-- The body bytes written through the writer, in order. -/
def ResponseWriter.body (w : ResponseWriter) : Bytes :=
  (w.events.filterMap (fun e => match e with | .write b => some b | _ => none)).flatten

/-- The header-copy loop of the handlers:
`for _, header := range resp.Headers { for _, value := range header.Values {
w.Header().Add(header.Name, value) } }`. -/
def headersAdd (w : ResponseWriter) (headers : List Tunnel.HttpHeader) : ResponseWriter :=
  headers.foldl (fun w hdr => hdr.values.foldl (fun w v => w.addHeader hdr.name v) w) w

/-- The header-delete loop of the handlers:
`for name := range w.Header() { r.Header.Del(name) }`.  Note it deletes the
names found in the writer's header map from the REQUEST headers `r.Header`
(deletions of distinct names commute, so the map iteration order is
irrelevant). -/
def dropRespNames (w : ResponseWriter) (reqHeader : Header) : Header :=
  reqHeader.filter (fun p => ¬ (Header.names w.headerMap).contains p.1)

/-- The state threaded through the `runAPIHandler` receive loop
(`service_server.go`; `kubernetesAPIHandler` in `controller.go` is
identical): the response writer, the inbound request's header map, and the
loop-local `seenHeader`, `isChunked` and `cleanClose` flags. -/
structure HandlerState where
  w : ResponseWriter
  reqHeader : Header
  seenHeader : Bool
  isChunked : Bool
  cleanClose : Bool
deriving DecidableEq

/-- The state at loop entry. -/
def HandlerState.mk0 (w : ResponseWriter) (reqHeader : Header) : HandlerState :=
  { w := w, reqHeader := reqHeader, seenHeader := false, isChunked := false,
    cleanClose := false }

/-- The receive loop of `runAPIHandler` (`service_server.go`): `frames` is the
sequence delivered on `message.Out`; the end of the list is the channel
closing (`more == false`).  Unknown and nil events fall to the ignore
branches. -/
def runAPIHandlerLoop (st : HandlerState) :
    List Tunnel.AgentToControllerEvent → HandlerState
  | [] =>
      if st.seenHeader then { st with cleanClose := true }
      else { st with w := st.w.writeHeader 502, cleanClose := true }
  | .httpResponse resp :: rest =>
      if resp.contentLength = 0 then
        { st with seenHeader := true,
                  isChunked := decide (resp.contentLength < 0),
                  reqHeader := dropRespNames st.w st.reqHeader,
                  w := (headersAdd st.w resp.headers).writeHeader resp.status,
                  cleanClose := true }
      else
        runAPIHandlerLoop
          { st with seenHeader := true,
                    isChunked := decide (resp.contentLength < 0),
                    reqHeader := dropRespNames st.w st.reqHeader,
                    w := (headersAdd st.w resp.headers).writeHeader resp.status }
          rest
  | .httpChunkedResponse chunk :: rest =>
      if ¬ st.seenHeader then { st with w := st.w.writeHeader 502 }
      else if chunk.body = [] then { st with cleanClose := true }
      else
        runAPIHandlerLoop
          { st with w := if st.isChunked then (st.w.write chunk.body).flush
                         else st.w.write chunk.body }
          rest
  | .pingRequest :: rest => runAPIHandlerLoop st rest
  | .agentHello :: rest => runAPIHandlerLoop st rest
  | .commandData _ :: rest => runAPIHandlerLoop st rest
  | .commandTermination _ :: rest => runAPIHandlerLoop st rest
  | .nilEvent :: rest => runAPIHandlerLoop st rest

/-- The write/flush trace the loop produces for a run of non-empty chunk
frames, flushing after each chunk exactly when `isChunked` holds. -/
def chunkEvents (isChunked : Bool) (chunks : List Tunnel.HttpChunkedResponse) :
    List WriteEvent :=
  chunks.flatMap (fun c => .write c.body :: (if isChunked then [.flush] else []))

/-- The parts of an inbound `*http.Request` read by the service handlers. -/
structure Request where
  tlsPeerCertificates : List Ca.Cert
  basicAuth : Option (String × Ca.Token)
  header : Header
  method : String
  requestURI : String
  body : Bytes

/-- The four named results of the `extractEndpoint` helpers
(`service_server.go`). -/
structure ExtractResult where
  agentIdentity : String
  endpointType : String
  endpointName : String
  validated : Bool
deriving DecidableEq

/-- `extractEndpointFromCert`: no peer certificate, an unparsable CN, or a
purpose other than `service` yield `validated = false`. -/
def extractEndpointFromCert (r : Request) : ExtractResult :=
  match r.tlsPeerCertificates with
  | [] => ⟨"", "", "", false⟩
  | c :: _ =>
    match Ca.GetCertificateNameFromCert c with
    | .error _ => ⟨"", "", "", false⟩
    | .ok names =>
      if names.purpose ≠ .service then ⟨"", "", "", false⟩
      else ⟨names.agent, names.type, names.name, true⟩

/-- `extractEndpointFromJWT`: the JWT is the Basic-auth password. -/
def extractEndpointFromJWT (r : Request) : ExtractResult :=
  match r.basicAuth with
  | none => ⟨"", "", "", false⟩
  | some (_, password) =>
    match Ca.ValidateJWT password with
    | .error _ => ⟨"", "", "", false⟩
    | .ok (endpointType, endpointName, agentIdentity) =>
      ⟨agentIdentity, endpointType, endpointName, true⟩

/-- `extractEndpoint`: certificate extraction first, JWT only when it did not
validate, else an error. -/
def extractEndpoint (r : Request) : Except String (String × String × String) :=
  if (extractEndpointFromCert r).validated then
    .ok ((extractEndpointFromCert r).agentIdentity,
         (extractEndpointFromCert r).endpointType,
         (extractEndpointFromCert r).endpointName)
  else if (extractEndpointFromJWT r).validated then
    .ok ((extractEndpointFromJWT r).agentIdentity,
         (extractEndpointFromJWT r).endpointType,
         (extractEndpointFromJWT r).endpointName)
  else .error "no valid credentials or JWT found"

/-- Modelled from the spec: `httpError` (not under src/) renders the error
message as a response body. -/
def httpError (msg : String) : Bytes := strBytes msg

/-- `agent.AgentSearch` as filled in by `serviceAPIHandler` (the `Session`
field is assigned later, by `runAPIHandler`). -/
structure AgentSearch where
  name : String
  endpointType : String
  endpointName : String
deriving DecidableEq

/-- `serviceAPIHandler` up to the dispatch decision: on identity-extraction
failure it does `w.Write(httpError(err))` and then `w.WriteHeader(400)` and
returns without dispatching; otherwise it hands the endpoint tuple to
`runAPIHandler`.  Returns the final writer and the dispatched search, if
any. -/
def serviceAPIHandler (r : Request) (w : ResponseWriter) :
    ResponseWriter × Option AgentSearch :=
  match extractEndpoint r with
  | .error e => ((w.write (httpError e)).writeHeader 400, none)
  | .ok (agentIdentity, endpointType, endpointName) =>
      (w, some ⟨agentIdentity, endpointType, endpointName⟩)

end Controller

namespace CncServer

/-- The outcome of the `authenticate` wrapper (`cncserver`): a wrong method
fails 405, a bad or non-control certificate fails 403, and otherwise the
wrapped handler runs. -/
inductive GateResult
  | failMethodNotAllowed
  | failForbidden
  | pass
deriving DecidableEq

/-- `cncserver.authenticate(method, h)` applied to a request with the given
method and verified peer certificate. -/
def authenticate (method reqMethod : String) (peerCert : Ca.Cert) : GateResult :=
  if reqMethod ≠ method then .failMethodNotAllowed
  else
    match Ca.GetCertificateNameFromCert peerCert with
    | .error _ => .failForbidden
    | .ok names =>
      if names.purpose ≠ .control then .failForbidden
      else .pass

/-- `fwdapi.ControlCredentialsRequest`: the decoded JSON body. -/
structure ControlCredentialsRequest where
  name : String
deriving DecidableEq

/-- The `ca.CertificateName` that `generateControlCredentials` (`cncserver`)
passes to `GenerateCertificate`: `Name` from the request and
`Purpose: ca.CertificatePurposeAgent`; the other fields are Go zero values. -/
def generateControlCredentialsCertName (req : ControlCredentialsRequest) :
    Ca.CertificateName :=
  { agent := "", type := "", name := req.name, purpose := .agent }

/-- The leaf certificate minted by `generateControlCredentials`. -/
def generateControlCredentialsCert (req : ControlCredentialsRequest) : Ca.Cert :=
  Ca.GenerateCertificate (generateControlCredentialsCertName req)

end CncServer

namespace Agent

/-- `outputMessage` (`agent/command.go`): one message on the aggregation
channel feeding `runCommand`'s loop. -/
structure outputMessage where
  channel : Tunnel.ChannelDirection
  value : Bytes
  closed : Bool
deriving DecidableEq

/-- The terminal outcome of reading a pipe: `io.EOF` or another read error;
either way `outputSender` emits one `closed=true` message and returns. -/
inductive ReadEnd
  | eof
  | readErr
deriving DecidableEq

/-- `outputSender` (`agent/command.go`): one data message per successful
(`n > 0`) read, the buffer copied before sending, then, on `io.EOF` or on any
other read error, exactly one `closed=true` message for the channel.  `reads`
is the sequence of successful reads and `ending` the terminal outcome. -/
def outputSender (channel : Tunnel.ChannelDirection) (reads : List Bytes)
    (ending : ReadEnd) : List outputMessage :=
  match reads with
  | [] => [⟨channel, [], true⟩]
  | b :: rest => ⟨channel, b, false⟩ :: outputSender channel rest ending

/-- `makeCommandFailed`: a `CommandTermination` with exit code 127 whose
message is `fmt.Sprintf("%s: %v", message, err)` when `err` is non-nil. -/
def makeCommandFailed (req : Tunnel.CommandRequest) (err : Option String)
    (message : String) : Tunnel.AgentToControllerEvent :=
  .commandTermination
    { id := req.id, exitCode := 127,
      message := match err with
                 | some e => message ++ ": " ++ e
                 | none => message }

/-- `makeCommandTermination`: a `CommandTermination` with the exit status and
an empty message. -/
def makeCommandTermination (req : Tunnel.CommandRequest) (exitstatus : Int) :
    Tunnel.AgentToControllerEvent :=
  .commandTermination { id := req.id, exitCode := exitstatus, message := "" }

/-- `makeCommandData`: a non-closed `CommandData` frame carrying `data`. -/
def makeCommandData (req : Tunnel.CommandRequest)
    (channel : Tunnel.ChannelDirection) (data : Bytes) :
    Tunnel.AgentToControllerEvent :=
  .commandData { id := req.id, body := data, channel := channel, closed := false }

/-- `makeCommandDataClosed`: the `closed=true` `CommandData` frame for a
channel. -/
def makeCommandDataClosed (req : Tunnel.CommandRequest)
    (channel : Tunnel.ChannelDirection) : Tunnel.AgentToControllerEvent :=
  .commandData { id := req.id, body := [], channel := channel, closed := true }

/-- Which spawn step of `runCommand` fails, if any: `cmd.StdoutPipe()`,
`cmd.StderrPipe()`, `cmd.Start()`, or none. -/
inductive SpawnResult
  | stdoutPipeFail (err : String)
  | stderrPipeFail (err : String)
  | startFail (err : String)
  | started
deriving DecidableEq

/-- The outcome of `cmd.Wait()`: success, an `*exec.ExitError` (whose
`WaitStatus`, and hence exit code, may be unavailable), or another error. -/
inductive WaitResult
  | ok
  | exitErr (status : Option Int)
  | otherErr (err : String)
deriving DecidableEq

/-- The frame `runCommand`'s loop forwards for one aggregated message. -/
def frameOf (req : Tunnel.CommandRequest) (m : outputMessage) :
    Tunnel.AgentToControllerEvent :=
  if m.closed then makeCommandDataClosed req m.channel
  else makeCommandData req m.channel m.value

/-- The `for msg := range agg` loop of `runCommand`, with `activeCount` open
channels remaining: data messages are forwarded, each `closed` message is
forwarded and decrements the count, and the loop breaks when it reaches zero.
`none` models the loop blocking forever on a channel that never delivers
enough `closed` messages. -/
def runCommandLoop (req : Tunnel.CommandRequest) :
    Nat → List outputMessage → Option (List Tunnel.AgentToControllerEvent)
  | _, [] => none
  | activeCount, msg :: rest =>
    if msg.closed then
      if activeCount = 1 then some [makeCommandDataClosed req msg.channel]
      else (runCommandLoop req (activeCount - 1) rest).map
             (fun fs => makeCommandDataClosed req msg.channel :: fs)
    else (runCommandLoop req activeCount rest).map
           (fun fs => makeCommandData req msg.channel msg.value :: fs)

/-- The terminal frame `runCommand` sends after `cmd.Wait()`: the captured
exit status, exit 0 on success, `makeCommandFailed` on a non-exit error; an
`ExitError` whose status cannot be retrieved falls through to the exit-0
frame. -/
def waitFrame (req : Tunnel.CommandRequest) : WaitResult →
    Tunnel.AgentToControllerEvent
  | .ok => makeCommandTermination req 0
  | .exitErr (some status) => makeCommandTermination req status
  | .exitErr none => makeCommandTermination req 0
  | .otherErr e => makeCommandFailed req (some e) "Wait()"

/-- `runCommand` (`agent/command.go`): the frames sent on `dataflow`, as a
function of the spawn outcome, the aggregated stdout/stderr message stream,
and the wait outcome.  Each spawn failure emits one `makeCommandFailed` frame
and returns; otherwise the loop drains `agg` and the wait frame follows. -/
def runCommand (req : Tunnel.CommandRequest) (spawn : SpawnResult)
    (agg : List outputMessage) (wait : WaitResult) :
    Option (List Tunnel.AgentToControllerEvent) :=
  match spawn with
  | .stdoutPipeFail e => some [makeCommandFailed req (some e) "StdoutPipe()"]
  | .stderrPipeFail e => some [makeCommandFailed req (some e) "StderrPipe()"]
  | .startFail e => some [makeCommandFailed req (some e) "Start()"]
  | .started => (runCommandLoop req 2 agg).map (fun fs => fs ++ [waitFrame req wait])

/-- `zs` is an interleaving of `xs` and `ys`: the aggregation channel delivers
an arbitrary merge of the two `outputSender` streams. -/
inductive Merge {α : Type} : List α → List α → List α → Prop
  | nil : Merge [] [] []
  | left {x : α} {xs ys zs : List α} : Merge xs ys zs → Merge (x :: xs) ys (x :: zs)
  | right {y : α} {xs ys zs : List α} : Merge xs ys zs → Merge xs (y :: ys) (y :: zs)

end Agent

namespace RemoteCommand

/-- `tunnel.CmdToolCommandData` (no `id`: stripped on the tool leg). -/
structure CmdToolCommandData where
  body : Bytes
  channel : Tunnel.ChannelDirection
  closed : Bool
deriving DecidableEq

/-- `tunnel.CmdToolCommandTermination`. -/
structure CmdToolCommandTermination where
  exitCode : Int
  message : String
deriving DecidableEq

/-- The `oneof event` of `tunnel.ControllerToCmdToolWrapper`; `nilEvent` is a
wrapper whose `Event` field is nil. -/
inductive ControllerToCmdToolEvent
  | commandData (d : CmdToolCommandData)
  | commandTermination (t : CmdToolCommandTermination)
  | nilEvent
deriving DecidableEq

/-- The tool's own stdout and stderr streams. -/
structure ToolOutput where
  stdout : Bytes
  stderr : Bytes
deriving DecidableEq

/-- The result of the cmdtool receive loop: `os.Exit(code)` from a
`CommandTermination` frame, or the server closing the stream first. -/
inductive ToolResult
  | exit (code : Int) (out : ToolOutput)
  | serverClosed (out : ToolOutput)
deriving DecidableEq

/-- The receive loop of `runCommand` (`remote-command/main.go`): each
`CommandData` body goes to the tool's stdout when its channel is `STDOUT` and
to stderr otherwise; a `CommandTermination` first prints its message and a
newline to stderr when the message is non-empty, then exits with its code;
the end of the list is the server closing the stream (`io.EOF`). -/
def toolReceiveLoop (out : ToolOutput) :
    List ControllerToCmdToolEvent → ToolResult
  | [] => .serverClosed out
  | .commandData d :: rest =>
      if d.channel = .STDOUT then
        toolReceiveLoop { out with stdout := out.stdout ++ d.body } rest
      else
        toolReceiveLoop { out with stderr := out.stderr ++ d.body } rest
  | .commandTermination t :: _ =>
      if 0 < t.message.length then
        .exit t.exitCode { out with stderr := out.stderr ++ strBytes t.message ++ [10] }
      else
        .exit t.exitCode out
  | .nilEvent :: rest => toolReceiveLoop out rest

/-- The concatenated bodies routed to the tool's stdout by a frame sequence
(channel `STDOUT`). -/
def toolStdout : List ControllerToCmdToolEvent → Bytes
  | [] => []
  | .commandData d :: rest =>
      (if d.channel = .STDOUT then d.body else []) ++ toolStdout rest
  | _ :: rest => toolStdout rest

/-- The concatenated bodies routed to the tool's stderr by a frame sequence
(every channel other than `STDOUT`). -/
def toolStderr : List ControllerToCmdToolEvent → Bytes
  | [] => []
  | .commandData d :: rest =>
      (if d.channel = .STDOUT then [] else d.body) ++ toolStderr rest
  | _ :: rest => toolStderr rest

/-- Is this frame a `CommandTermination`? -/
def isToolTermination : ControllerToCmdToolEvent → Bool
  | .commandTermination _ => true
  | _ => false

end RemoteCommand

/-- Is this frame a `CommandData{closed=true}` for the given channel? -/
def isClosedFrameFor (ch : Tunnel.ChannelDirection) :
    Tunnel.AgentToControllerEvent → Bool
  | .commandData d => d.closed && d.channel == ch
  | _ => false

/-- Is this frame a `CommandTermination`? -/
def isTerminationFrame : Tunnel.AgentToControllerEvent → Bool
  | .commandTermination _ => true
  | _ => false

/-- Is this frame a `CommandData`? -/
def isCommandDataFrame : Tunnel.AgentToControllerEvent → Bool
  | .commandData _ => true
  | _ => false

namespace Controller

/-- Folding `Add` over the values of one header only changes the header map. -/
theorem valuesFold_proj (n : String) (vs : List String) (w : ResponseWriter) :
    (vs.foldl (fun w v => w.addHeader n v) w).events = w.events ∧
    (vs.foldl (fun w v => w.addHeader n v) w).wroteHeader = w.wroteHeader ∧
    (vs.foldl (fun w v => w.addHeader n v) w).sentStatus = w.sentStatus ∧
    (vs.foldl (fun w v => w.addHeader n v) w).sentHeaders = w.sentHeaders := by
  induction vs generalizing w with
  | nil => exact ⟨rfl, rfl, rfl, rfl⟩
  | cons v vs ih => simpa [ResponseWriter.addHeader] using ih (w.addHeader n v)

/-- The header-copy loop only changes the header map. -/
theorem headersAdd_proj (headers : List Tunnel.HttpHeader) (w : ResponseWriter) :
    (headersAdd w headers).events = w.events ∧
    (headersAdd w headers).wroteHeader = w.wroteHeader ∧
    (headersAdd w headers).sentStatus = w.sentStatus ∧
    (headersAdd w headers).sentHeaders = w.sentHeaders := by
  unfold headersAdd
  induction headers generalizing w with
  | nil => exact ⟨rfl, rfl, rfl, rfl⟩
  | cons hdr rest ih =>
      have hv := valuesFold_proj hdr.name hdr.values w
      have hr := ih (hdr.values.foldl (fun w v => w.addHeader hdr.name v) w)
      simp only [List.foldl_cons]
      exact ⟨hr.1.trans hv.1, hr.2.1.trans hv.2.1, hr.2.2.1.trans hv.2.2.1,
             hr.2.2.2.trans hv.2.2.2⟩

/-- After any `WriteHeader` the status is committed. -/
theorem writeHeader_wroteHeader (w : ResponseWriter) (c : Int) :
    (w.writeHeader c).wroteHeader = true := by
  unfold ResponseWriter.writeHeader
  split
  · assumption
  · rfl

/-- `WriteHeader` on an uncommitted writer. -/
theorem writeHeader_of_fresh (w : ResponseWriter) (c : Int)
    (hw : w.wroteHeader = false) :
    w.writeHeader c
      = { w with wroteHeader := true, sentStatus := some c,
                 sentHeaders := some w.headerMap,
                 events := w.events ++ [.header c] } := by
  unfold ResponseWriter.writeHeader
  simp [hw]

/-- `Write` on a committed writer only appends the write event. -/
theorem write_of_committed (w : ResponseWriter) (b : Bytes)
    (hw : w.wroteHeader = true) :
    w.write b = { w with events := w.events ++ [.write b] } := by
  unfold ResponseWriter.write
  simp [hw]

/-- The body is the concatenation of the write events. -/
theorem filterMap_chunkEvents (b : Bool) (chunks : List Tunnel.HttpChunkedResponse) :
    (chunkEvents b chunks).filterMap
        (fun e => match e with | .write bo => some bo | _ => none)
      = chunks.map (fun c => c.body) := by
  induction chunks with
  | nil => rfl
  | cons c cs ih =>
      cases b <;>
        simp_all [chunkEvents, List.flatMap_cons, List.filterMap_append,
                  List.filterMap_cons]

/-- Draining a run of non-empty chunk frames terminated by an empty-body
frame, from a state that has already seen the response header: each chunk is
written (and flushed exactly when `isChunked`), the empty frame ends the
transaction cleanly, and later frames are never consumed. -/
theorem runAPIHandlerLoop_chunks
    (chunks : List Tunnel.HttpChunkedResponse) (endId : String)
    (rest : List Tunnel.AgentToControllerEvent) :
    ∀ st : HandlerState, st.seenHeader = true → st.w.wroteHeader = true →
      (∀ c ∈ chunks, c.body ≠ []) →
      runAPIHandlerLoop st
          (chunks.map .httpChunkedResponse
            ++ .httpChunkedResponse ⟨endId, []⟩ :: rest)
        = { st with
              w := { st.w with
                       events := st.w.events ++ chunkEvents st.isChunked chunks },
              cleanClose := true } := by
  induction chunks with
  | nil =>
      intro st hseen _ _
      simp [runAPIHandlerLoop, hseen, chunkEvents]
  | cons c cs ih =>
      intro st hseen hw hne
      have hcb : c.body ≠ [] := hne c (by simp)
      have hrest : ∀ x ∈ cs, x.body ≠ [] := fun x hx => hne x (by simp [hx])
      have hwr := write_of_committed st.w c.body hw
      cases hch : st.isChunked with
      | false =>
          have hstep :
              runAPIHandlerLoop st
                  ((c :: cs).map Tunnel.AgentToControllerEvent.httpChunkedResponse
                    ++ .httpChunkedResponse ⟨endId, []⟩ :: rest)
                = runAPIHandlerLoop { st with w := st.w.write c.body }
                    (cs.map Tunnel.AgentToControllerEvent.httpChunkedResponse
                      ++ .httpChunkedResponse ⟨endId, []⟩ :: rest) := by
            simp [runAPIHandlerLoop, hseen, hcb, hch]
          have hw2 : (st.w.write c.body).wroteHeader = true := by
            rw [hwr]; exact hw
          have h2 := ih { st with w := st.w.write c.body } hseen hw2 hrest
          rw [hstep, h2, hwr]
          simp [chunkEvents, hch, List.flatMap_cons]
      | true =>
          have hstep :
              runAPIHandlerLoop st
                  ((c :: cs).map Tunnel.AgentToControllerEvent.httpChunkedResponse
                    ++ .httpChunkedResponse ⟨endId, []⟩ :: rest)
                = runAPIHandlerLoop { st with w := (st.w.write c.body).flush }
                    (cs.map Tunnel.AgentToControllerEvent.httpChunkedResponse
                      ++ .httpChunkedResponse ⟨endId, []⟩ :: rest) := by
            simp [runAPIHandlerLoop, hseen, hcb, hch]
          have hw2 : ((st.w.write c.body).flush).wroteHeader = true := by
            rw [hwr]; exact hw
          have h2 := ih { st with w := (st.w.write c.body).flush } hseen hw2 hrest
          rw [hstep, h2, hwr]
          simp [chunkEvents, hch, List.flatMap_cons, ResponseWriter.flush]

/-- Processing the initial `HttpResponse` frame from a fresh handler state,
when `contentLength` is non-zero: the loop continues on the remaining frames
with the header written and the flags set. -/
theorem runAPIHandlerLoop_response_step (w0h rh : Header)
    (resp : Tunnel.HttpResponse) (hcl : resp.contentLength ≠ 0)
    (tail : List Tunnel.AgentToControllerEvent) :
    runAPIHandlerLoop (HandlerState.mk0 (ResponseWriter.mk0 w0h) rh)
        (.httpResponse resp :: tail)
      = runAPIHandlerLoop
          { w := (headersAdd (ResponseWriter.mk0 w0h) resp.headers).writeHeader
                   resp.status,
            reqHeader := dropRespNames (ResponseWriter.mk0 w0h) rh,
            seenHeader := true,
            isChunked := decide (resp.contentLength < 0),
            cleanClose := false } tail := by
  simp [runAPIHandlerLoop, hcl, HandlerState.mk0]

/-- Processing the initial `HttpResponse` frame from a fresh handler state,
when `contentLength` is zero: the transaction ends at once; later frames are
never consumed. -/
theorem runAPIHandlerLoop_response_zero (w0h rh : Header)
    (resp : Tunnel.HttpResponse) (hcl : resp.contentLength = 0)
    (tail : List Tunnel.AgentToControllerEvent) :
    runAPIHandlerLoop (HandlerState.mk0 (ResponseWriter.mk0 w0h) rh)
        (.httpResponse resp :: tail)
      = { w := (headersAdd (ResponseWriter.mk0 w0h) resp.headers).writeHeader
                 resp.status,
          reqHeader := dropRespNames (ResponseWriter.mk0 w0h) rh,
          seenHeader := true,
          isChunked := decide (resp.contentLength < 0),
          cleanClose := true } := by
  simp [runAPIHandlerLoop, hcl, HandlerState.mk0]

/-- The writer after the header-copy loop and `WriteHeader` on a fresh
writer. -/
theorem freshResponseWriter (w0h : Header) (resp : Tunnel.HttpResponse) :
    (headersAdd (ResponseWriter.mk0 w0h) resp.headers).writeHeader resp.status
      = { headerMap := (headersAdd (ResponseWriter.mk0 w0h) resp.headers).headerMap,
          wroteHeader := true,
          sentStatus := some resp.status,
          sentHeaders :=
            some (headersAdd (ResponseWriter.mk0 w0h) resp.headers).headerMap,
          events := [.header resp.status] } := by
  have hp := headersAdd_proj resp.headers (ResponseWriter.mk0 w0h)
  have hAw : (headersAdd (ResponseWriter.mk0 w0h) resp.headers).wroteHeader = false :=
    hp.2.1
  have hAe : (headersAdd (ResponseWriter.mk0 w0h) resp.headers).events = [] := hp.1
  rw [writeHeader_of_fresh _ _ hAw]
  simp [hAe]

end Controller

/-- C1: refuted by the code — `generateControlCredentials` builds the minted
certificate's `CertificateName` with `Purpose: ca.CertificatePurposeAgent`,
not `control`; presenting the resulting certificate to the control API's
`authenticate` gate (which requires purpose `control`) is rejected with 403,
for the request body with name "alice". -/
theorem C1_control_credentials_minted_with_agent_purpose :
    (CncServer.generateControlCredentialsCertName ⟨"alice"⟩).purpose
      = Ca.CertificatePurpose.agent ∧
    CncServer.authenticate "POST" "POST"
        (CncServer.generateControlCredentialsCert ⟨"alice"⟩)
      = CncServer.GateResult.failForbidden := by
  constructor <;> rfl

/-- C2: on an inbound request with no identity (no peer certificate and no
Basic-auth credentials), `serviceAPIHandler` dispatches nothing — but it calls
`w.Write(httpError(err))` before `w.WriteHeader(400)`, so net/http commits
status 200 on the first write and the later 400 is a superfluous no-op: the
wire status is 200, not the claimed 400. -/
theorem C2_no_identity_no_dispatch_but_status_200 :
    (Controller.serviceAPIHandler
        { tlsPeerCertificates := [], basicAuth := none, header := [],
          method := "GET", requestURI := "/api", body := [] }
        (Controller.ResponseWriter.mk0 [])).2 = none ∧
    (Controller.serviceAPIHandler
        { tlsPeerCertificates := [], basicAuth := none, header := [],
          method := "GET", requestURI := "/api", body := [] }
        (Controller.ResponseWriter.mk0 [])).1.sentStatus = some 200 := by
  constructor <;> rfl

/-- C3: refuted by the code — the clearing loop iterates the names of
`w.Header()` but deletes them from the REQUEST headers `r.Header`.  On a
transaction receiving `HttpResponse{headers = X-Early:1, contentLength = -1}`
and then `HttpResponse{headers = X-Late:2, contentLength = 0}`, the second
frame leaves the previously set `X-Early` on the writer (final header map
holds both, not exactly the agent headers of the frame), while the inbound
request's own `X-Early` header is what gets deleted. -/
theorem C3_preset_headers_survive_request_headers_deleted :
    ((Controller.runAPIHandlerLoop
        (Controller.HandlerState.mk0 (Controller.ResponseWriter.mk0 [])
          [("X-Early", ["q"])])
        [.httpResponse ⟨"t1", 200, [⟨"X-Early", ["1"]⟩], -1⟩,
         .httpResponse ⟨"t1", 201, [⟨"X-Late", ["2"]⟩], 0⟩]).w.headerMap
      = [("X-Early", ["1"]), ("X-Late", ["2"])]) ∧
    ((Controller.runAPIHandlerLoop
        (Controller.HandlerState.mk0 (Controller.ResponseWriter.mk0 [])
          [("X-Early", ["q"])])
        [.httpResponse ⟨"t1", 200, [⟨"X-Early", ["1"]⟩], -1⟩,
         .httpResponse ⟨"t1", 201, [⟨"X-Late", ["2"]⟩], 0⟩]).reqHeader
      = []) := by
  constructor <;> rfl

/-- C6: a `HttpChunkedResponse` arriving before any `HttpResponse` makes the
handler write status 502 and terminate the transaction at once: the remaining
frames are never consumed, no body byte is written, and the chunk's own body
is discarded. -/
theorem C6_chunk_before_response_replies_502_writes_no_body
    (chunk : Tunnel.HttpChunkedResponse)
    (rest : List Tunnel.AgentToControllerEvent)
    (w0h rh : Controller.Header) :
    Controller.runAPIHandlerLoop
        (Controller.HandlerState.mk0 (Controller.ResponseWriter.mk0 w0h) rh)
        (.httpChunkedResponse chunk :: rest)
      = Controller.HandlerState.mk0
          ((Controller.ResponseWriter.mk0 w0h).writeHeader 502) rh ∧
    (Controller.runAPIHandlerLoop
        (Controller.HandlerState.mk0 (Controller.ResponseWriter.mk0 w0h) rh)
        (.httpChunkedResponse chunk :: rest)).w.sentStatus = some 502 ∧
    (Controller.runAPIHandlerLoop
        (Controller.HandlerState.mk0 (Controller.ResponseWriter.mk0 w0h) rh)
        (.httpChunkedResponse chunk :: rest)).w.body = [] := by
  refine ⟨rfl, rfl, rfl⟩

/-- C4 (counterexample): with `HttpResponse{contentLength = 2}` followed by
chunk frames with bodies `[1, 2]`, `[3]` and an empty body, the handler
writes three body bytes, not exactly the two announced by `contentLength`:
completion is not determined by the byte count. -/
theorem C4_counterexample_not_byte_counted :
    (Controller.runAPIHandlerLoop
        (Controller.HandlerState.mk0 (Controller.ResponseWriter.mk0 []) [])
        [.httpResponse ⟨"t", 200, [], 2⟩,
         .httpChunkedResponse ⟨"t", [1, 2]⟩,
         .httpChunkedResponse ⟨"t", [3]⟩,
         .httpChunkedResponse ⟨"t", []⟩]).w.body = [1, 2, 3] ∧
    ¬ ([1, 2, 3] : Bytes) = [1, 2] := by
  refine ⟨rfl, by decide⟩

/-- C4 (amended): for `contentLength > 0` the handler does not count body
bytes; it writes each subsequent non-empty chunk body without flushing and
the transaction completes at the first empty-body `HttpChunkedResponse`
frame, never consuming later frames. -/
theorem C4_positive_contentLength_ends_on_empty_chunk
    (resp : Tunnel.HttpResponse) (hcl : 0 < resp.contentLength)
    (chunks : List Tunnel.HttpChunkedResponse)
    (hne : ∀ c ∈ chunks, c.body ≠ [])
    (endId : String) (rest : List Tunnel.AgentToControllerEvent)
    (w0h rh : Controller.Header) :
    (Controller.runAPIHandlerLoop
        (Controller.HandlerState.mk0 (Controller.ResponseWriter.mk0 w0h) rh)
        (.httpResponse resp :: (chunks.map .httpChunkedResponse
            ++ .httpChunkedResponse ⟨endId, []⟩ :: rest))).w.events
      = .header resp.status :: Controller.chunkEvents false chunks ∧
    (Controller.runAPIHandlerLoop
        (Controller.HandlerState.mk0 (Controller.ResponseWriter.mk0 w0h) rh)
        (.httpResponse resp :: (chunks.map .httpChunkedResponse
            ++ .httpChunkedResponse ⟨endId, []⟩ :: rest))).w.body
      = (chunks.map (fun c => c.body)).flatten ∧
    (Controller.runAPIHandlerLoop
        (Controller.HandlerState.mk0 (Controller.ResponseWriter.mk0 w0h) rh)
        (.httpResponse resp :: (chunks.map .httpChunkedResponse
            ++ .httpChunkedResponse ⟨endId, []⟩ :: rest))).cleanClose
      = true := by
  have hcl0 : resp.contentLength ≠ 0 := by omega
  have hic : decide (resp.contentLength < 0) = false := by
    simp only [decide_eq_false_iff_not, not_lt]
    omega
  have hstep := Controller.runAPIHandlerLoop_response_step w0h rh resp hcl0
      (chunks.map .httpChunkedResponse ++ .httpChunkedResponse ⟨endId, []⟩ :: rest)
  rw [hic] at hstep
  have hW1w : ((Controller.headersAdd (Controller.ResponseWriter.mk0 w0h)
      resp.headers).writeHeader resp.status).wroteHeader = true :=
    Controller.writeHeader_wroteHeader _ _
  have hdrained := Controller.runAPIHandlerLoop_chunks chunks endId rest
      { w := (Controller.headersAdd (Controller.ResponseWriter.mk0 w0h)
                resp.headers).writeHeader resp.status,
        reqHeader := Controller.dropRespNames (Controller.ResponseWriter.mk0 w0h) rh,
        seenHeader := true, isChunked := false, cleanClose := false }
      rfl hW1w hne
  have hrun := hstep.trans hdrained
  rw [Controller.freshResponseWriter] at hrun
  rw [hrun]
  refine ⟨by simp, ?_, by simp⟩
  simp [Controller.ResponseWriter.body, Controller.filterMap_chunkEvents]

/-- C4 witness: the amended theorem at `contentLength = 2` with one chunk. -/
theorem C4_positive_contentLength_witness :
    (Controller.runAPIHandlerLoop
        (Controller.HandlerState.mk0 (Controller.ResponseWriter.mk0 []) [])
        (.httpResponse ⟨"t", 200, [], 2⟩ ::
          ([(⟨"t", [7]⟩ : Tunnel.HttpChunkedResponse)].map .httpChunkedResponse
            ++ .httpChunkedResponse ⟨"t", []⟩ :: []))).w.events
      = .header 200 :: Controller.chunkEvents false [⟨"t", [7]⟩] ∧
    (Controller.runAPIHandlerLoop
        (Controller.HandlerState.mk0 (Controller.ResponseWriter.mk0 []) [])
        (.httpResponse ⟨"t", 200, [], 2⟩ ::
          ([(⟨"t", [7]⟩ : Tunnel.HttpChunkedResponse)].map .httpChunkedResponse
            ++ .httpChunkedResponse ⟨"t", []⟩ :: []))).w.body
      = ([(⟨"t", [7]⟩ : Tunnel.HttpChunkedResponse)].map (fun c => c.body)).flatten ∧
    (Controller.runAPIHandlerLoop
        (Controller.HandlerState.mk0 (Controller.ResponseWriter.mk0 []) [])
        (.httpResponse ⟨"t", 200, [], 2⟩ ::
          ([(⟨"t", [7]⟩ : Tunnel.HttpChunkedResponse)].map .httpChunkedResponse
            ++ .httpChunkedResponse ⟨"t", []⟩ :: []))).cleanClose = true :=
  C4_positive_contentLength_ends_on_empty_chunk ⟨"t", 200, [], 2⟩ (by decide)
    [⟨"t", [7]⟩] (by decide) "t" [] [] []

/-- C5: with `contentLength = 0` the handler commits the status and the agent
headers and ends the transaction with no body byte written, never consuming
later frames; with `contentLength < 0` the upstream body is the
concatenation, in arrival order, of the non-empty chunk bodies up to and
excluding the first empty-body frame, each chunk being written and flushed
immediately. -/
theorem C5_zero_and_chunked_response_semantics
    (resp : Tunnel.HttpResponse)
    (chunks : List Tunnel.HttpChunkedResponse)
    (hne : ∀ c ∈ chunks, c.body ≠ [])
    (endId : String) (rest : List Tunnel.AgentToControllerEvent)
    (w0h rh : Controller.Header) :
    (resp.contentLength = 0 →
      (Controller.runAPIHandlerLoop
          (Controller.HandlerState.mk0 (Controller.ResponseWriter.mk0 w0h) rh)
          (.httpResponse resp :: rest)).w.events = [.header resp.status] ∧
      (Controller.runAPIHandlerLoop
          (Controller.HandlerState.mk0 (Controller.ResponseWriter.mk0 w0h) rh)
          (.httpResponse resp :: rest)).w.sentStatus = some resp.status ∧
      (Controller.runAPIHandlerLoop
          (Controller.HandlerState.mk0 (Controller.ResponseWriter.mk0 w0h) rh)
          (.httpResponse resp :: rest)).w.sentHeaders
        = some (Controller.headersAdd (Controller.ResponseWriter.mk0 w0h)
                  resp.headers).headerMap ∧
      (Controller.runAPIHandlerLoop
          (Controller.HandlerState.mk0 (Controller.ResponseWriter.mk0 w0h) rh)
          (.httpResponse resp :: rest)).w.body = [] ∧
      (Controller.runAPIHandlerLoop
          (Controller.HandlerState.mk0 (Controller.ResponseWriter.mk0 w0h) rh)
          (.httpResponse resp :: rest)).cleanClose = true) ∧
    (resp.contentLength < 0 →
      (Controller.runAPIHandlerLoop
          (Controller.HandlerState.mk0 (Controller.ResponseWriter.mk0 w0h) rh)
          (.httpResponse resp :: (chunks.map .httpChunkedResponse
              ++ .httpChunkedResponse ⟨endId, []⟩ :: rest))).w.events
        = .header resp.status :: Controller.chunkEvents true chunks ∧
      (Controller.runAPIHandlerLoop
          (Controller.HandlerState.mk0 (Controller.ResponseWriter.mk0 w0h) rh)
          (.httpResponse resp :: (chunks.map .httpChunkedResponse
              ++ .httpChunkedResponse ⟨endId, []⟩ :: rest))).w.body
        = (chunks.map (fun c => c.body)).flatten ∧
      (Controller.runAPIHandlerLoop
          (Controller.HandlerState.mk0 (Controller.ResponseWriter.mk0 w0h) rh)
          (.httpResponse resp :: (chunks.map .httpChunkedResponse
              ++ .httpChunkedResponse ⟨endId, []⟩ :: rest))).cleanClose
        = true) := by
  constructor
  · intro hcl
    have h0 := Controller.runAPIHandlerLoop_response_zero w0h rh resp hcl rest
    rw [Controller.freshResponseWriter] at h0
    rw [h0]
    refine ⟨by simp, by simp, by simp, ?_, by simp⟩
    simp [Controller.ResponseWriter.body]
  · intro hcl
    have hcl0 : resp.contentLength ≠ 0 := by omega
    have hic : decide (resp.contentLength < 0) = true := by simpa using hcl
    have hstep := Controller.runAPIHandlerLoop_response_step w0h rh resp hcl0
        (chunks.map .httpChunkedResponse ++ .httpChunkedResponse ⟨endId, []⟩ :: rest)
    rw [hic] at hstep
    have hW1w : ((Controller.headersAdd (Controller.ResponseWriter.mk0 w0h)
        resp.headers).writeHeader resp.status).wroteHeader = true :=
      Controller.writeHeader_wroteHeader _ _
    have hdrained := Controller.runAPIHandlerLoop_chunks chunks endId rest
        { w := (Controller.headersAdd (Controller.ResponseWriter.mk0 w0h)
                  resp.headers).writeHeader resp.status,
          reqHeader := Controller.dropRespNames (Controller.ResponseWriter.mk0 w0h) rh,
          seenHeader := true, isChunked := true, cleanClose := false }
        rfl hW1w hne
    have hrun := hstep.trans hdrained
    rw [Controller.freshResponseWriter] at hrun
    rw [hrun]
    refine ⟨by simp, ?_, by simp⟩
    simp [Controller.ResponseWriter.body, Controller.filterMap_chunkEvents]

/-- C5 witness: the chunked case at `contentLength = -1` with chunk bodies
`a` (97) and `bc` (98, 99) and then the empty terminator: the upstream body
is `abc` and each chunk is flushed. -/
theorem C5_chunked_stream_witness :
    (Controller.runAPIHandlerLoop
        (Controller.HandlerState.mk0 (Controller.ResponseWriter.mk0 []) [])
        (.httpResponse ⟨"t", 200, [], -1⟩ ::
          (([⟨"t", [97]⟩, ⟨"t", [98, 99]⟩] :
              List Tunnel.HttpChunkedResponse).map .httpChunkedResponse
            ++ .httpChunkedResponse ⟨"t", []⟩ :: []))).w.events
      = .header 200 :: Controller.chunkEvents true [⟨"t", [97]⟩, ⟨"t", [98, 99]⟩] ∧
    (Controller.runAPIHandlerLoop
        (Controller.HandlerState.mk0 (Controller.ResponseWriter.mk0 []) [])
        (.httpResponse ⟨"t", 200, [], -1⟩ ::
          (([⟨"t", [97]⟩, ⟨"t", [98, 99]⟩] :
              List Tunnel.HttpChunkedResponse).map .httpChunkedResponse
            ++ .httpChunkedResponse ⟨"t", []⟩ :: []))).w.body
      = (([⟨"t", [97]⟩, ⟨"t", [98, 99]⟩] :
            List Tunnel.HttpChunkedResponse).map (fun c => c.body)).flatten ∧
    (Controller.runAPIHandlerLoop
        (Controller.HandlerState.mk0 (Controller.ResponseWriter.mk0 []) [])
        (.httpResponse ⟨"t", 200, [], -1⟩ ::
          (([⟨"t", [97]⟩, ⟨"t", [98, 99]⟩] :
              List Tunnel.HttpChunkedResponse).map .httpChunkedResponse
            ++ .httpChunkedResponse ⟨"t", []⟩ :: []))).cleanClose = true :=
  (C5_zero_and_chunked_response_semantics ⟨"t", 200, [], -1⟩
      [⟨"t", [97]⟩, ⟨"t", [98, 99]⟩] (by decide) "t" [] [] []).2 (by decide)

/-- C10: on the service listener the client certificate takes precedence over
the JWT: when the first peer certificate parses to a service-purpose name,
`extractEndpoint` returns the tuple from the certificate whatever the
Basic-auth side holds, so the JWT is never consulted; the JWT path decides
the result exactly when certificate extraction fails, and certificate
extraction fails iff there is no peer certificate, the CN is unparsable, or
the purpose is not `service`. -/
theorem C10_certificate_precedence_over_jwt
    (n : Ca.CertificateName) (certrest : List Ca.Cert)
    (ba : Option (String × Ca.Token)) (h : Controller.Header)
    (m u : String) (b : Bytes) (r : Controller.Request) :
    (n.purpose = .service →
      Controller.extractEndpoint
          { tlsPeerCertificates := .withName n :: certrest, basicAuth := ba,
            header := h, method := m, requestURI := u, body := b }
        = .ok (n.agent, n.type, n.name)) ∧
    ((Controller.extractEndpointFromCert r).validated = false →
      Controller.extractEndpoint r
        = (if (Controller.extractEndpointFromJWT r).validated then
             .ok ((Controller.extractEndpointFromJWT r).agentIdentity,
                  (Controller.extractEndpointFromJWT r).endpointType,
                  (Controller.extractEndpointFromJWT r).endpointName)
           else .error "no valid credentials or JWT found")) ∧
    ((Controller.extractEndpointFromCert r).validated = false ↔
      (r.tlsPeerCertificates = [] ∨
       (∃ rest, r.tlsPeerCertificates = Ca.Cert.invalid :: rest) ∨
       (∃ n2 rest, r.tlsPeerCertificates = Ca.Cert.withName n2 :: rest ∧
          n2.purpose ≠ Ca.CertificatePurpose.service))) := by
  refine ⟨?_, ?_, ?_⟩
  · intro hp
    simp [Controller.extractEndpoint, Controller.extractEndpointFromCert,
          Ca.GetCertificateNameFromCert, hp]
  · intro hfail
    simp [Controller.extractEndpoint, hfail]
  · cases hc : r.tlsPeerCertificates with
    | nil => simp [Controller.extractEndpointFromCert, hc]
    | cons c cs =>
        cases c with
        | invalid =>
            simp [Controller.extractEndpointFromCert, hc,
                  Ca.GetCertificateNameFromCert]
        | withName n2 =>
            by_cases hp : n2.purpose = Ca.CertificatePurpose.service
            · simp [Controller.extractEndpointFromCert, hc,
                    Ca.GetCertificateNameFromCert, hp]
            · simp [Controller.extractEndpointFromCert, hc,
                    Ca.GetCertificateNameFromCert, hp]

/-- C10 witness: a request presenting both a verified service certificate for
`(east, aws, prod)` and Basic credentials holding a valid JWT for a different
tuple is dispatched by the certificate tuple. -/
theorem C10_certificate_precedence_witness :
    Controller.extractEndpoint
        { tlsPeerCertificates := [.withName ⟨"east", "aws", "prod", .service⟩],
          basicAuth := some ("user", .valid "jenkins" "ci" "west"),
          header := [], method := "GET", requestURI := "/", body := [] }
      = .ok ("east", "aws", "prod") :=
  (C10_certificate_precedence_over_jwt ⟨"east", "aws", "prod", .service⟩ []
      (some ("user", .valid "jenkins" "ci" "west")) [] "GET" "/" []
      { tlsPeerCertificates := [], basicAuth := none, header := [],
        method := "GET", requestURI := "/", body := [] }).1 rfl

/-- C8: when a spawn step of `runCommand` fails (`StdoutPipe()`,
`StderrPipe()`, or `Start()`), the frame sequence is exactly one
`CommandTermination` with exit code 127 whose message names the failing step
and carries the error text (hence is non-empty), and no `CommandData` frame
is emitted. -/
theorem C8_spawn_failure_terminates_127
    (req : Tunnel.CommandRequest) (e : String)
    (agg : List Agent.outputMessage) (wait : Agent.WaitResult) :
    Agent.runCommand req (.startFail e) agg wait
      = some [.commandTermination
                { id := req.id, exitCode := 127,
                  message := "Start()" ++ ": " ++ e }] ∧
    Agent.runCommand req (.stdoutPipeFail e) agg wait
      = some [.commandTermination
                { id := req.id, exitCode := 127,
                  message := "StdoutPipe()" ++ ": " ++ e }] ∧
    Agent.runCommand req (.stderrPipeFail e) agg wait
      = some [.commandTermination
                { id := req.id, exitCode := 127,
                  message := "StderrPipe()" ++ ": " ++ e }] ∧
    0 < ("Start()" ++ ": " ++ e).length ∧
    0 < ("StdoutPipe()" ++ ": " ++ e).length ∧
    0 < ("StderrPipe()" ++ ": " ++ e).length ∧
    ([.commandTermination
        { id := req.id, exitCode := 127, message := "Start()" ++ ": " ++ e }] :
      List Tunnel.AgentToControllerEvent).countP isCommandDataFrame = 0 := by
  have hs : ("Start()" : String).length = 7 := rfl
  have ho : ("StdoutPipe()" : String).length = 12 := rfl
  have he : ("StderrPipe()" : String).length = 12 := rfl
  have hc : (": " : String).length = 2 := rfl
  refine ⟨rfl, rfl, rfl, ?_, ?_, ?_, rfl⟩ <;>
    simp only [String.length_append, hs, ho, he, hc] <;> omega

/-- One `CommandData` frame routes its body by channel. -/
theorem toolReceiveLoop_cons_data (out : RemoteCommand.ToolOutput)
    (d : RemoteCommand.CmdToolCommandData)
    (l : List RemoteCommand.ControllerToCmdToolEvent) :
    RemoteCommand.toolReceiveLoop out (.commandData d :: l)
      = RemoteCommand.toolReceiveLoop
          (if d.channel = Tunnel.ChannelDirection.STDOUT
           then { out with stdout := out.stdout ++ d.body }
           else { out with stderr := out.stderr ++ d.body }) l := by
  by_cases hch : d.channel = Tunnel.ChannelDirection.STDOUT <;>
    simp [RemoteCommand.toolReceiveLoop, hch]

/-- A nil wrapper is skipped. -/
theorem toolReceiveLoop_cons_nilEvent (out : RemoteCommand.ToolOutput)
    (l : List RemoteCommand.ControllerToCmdToolEvent) :
    RemoteCommand.toolReceiveLoop out (.nilEvent :: l)
      = RemoteCommand.toolReceiveLoop out l := rfl

/-- The cmdtool receive loop over a prefix free of `CommandTermination`
frames, then a termination frame: data bodies are routed by channel onto the
running output, the message (if non-empty) is printed to stderr with a
newline, and the tool exits with the frame's exit code; later frames are
never consumed. -/
theorem toolReceiveLoop_split
    (pre : List RemoteCommand.ControllerToCmdToolEvent)
    (t : RemoteCommand.CmdToolCommandTermination)
    (rest : List RemoteCommand.ControllerToCmdToolEvent) :
    (∀ e ∈ pre, RemoteCommand.isToolTermination e = false) →
    ∀ out : RemoteCommand.ToolOutput,
      RemoteCommand.toolReceiveLoop out (pre ++ .commandTermination t :: rest)
        = .exit t.exitCode
            { stdout := out.stdout ++ RemoteCommand.toolStdout pre,
              stderr := out.stderr ++ RemoteCommand.toolStderr pre ++
                (if 0 < t.message.length then strBytes t.message ++ [10]
                 else []) } := by
  induction pre with
  | nil =>
      intro _ out
      simp only [List.nil_append, RemoteCommand.toolReceiveLoop,
                 RemoteCommand.toolStdout, RemoteCommand.toolStderr]
      split <;> simp_all
  | cons ev es ih =>
      intro hpre out
      have hes : ∀ e ∈ es, RemoteCommand.isToolTermination e = false :=
        fun e hx => hpre e (by simp [hx])
      cases ev with
      | commandData d =>
          rw [List.cons_append, toolReceiveLoop_cons_data, ih hes]
          by_cases hch : d.channel = Tunnel.ChannelDirection.STDOUT <;>
            simp [RemoteCommand.toolStdout, RemoteCommand.toolStderr, hch]
      | commandTermination t2 =>
          exact absurd (hpre (.commandTermination t2) (by simp))
            (by simp [RemoteCommand.isToolTermination])
      | nilEvent =>
          rw [List.cons_append, toolReceiveLoop_cons_nilEvent, ih hes]
          simp [RemoteCommand.toolStdout, RemoteCommand.toolStderr]

/-- C9: when the cmdtool receives a `CommandTermination` frame after a run of
`CommandData` (and ignorable) frames, it exits with exactly the frame's exit
code, printing the frame's message and a newline to stderr first when the
message is non-empty; each preceding `CommandData` body was written to the
tool's stdout when its channel is `STDOUT` and to stderr otherwise, in
order. -/
theorem C9_tool_exit_code_and_routing
    (pre : List RemoteCommand.ControllerToCmdToolEvent)
    (hpre : ∀ e ∈ pre, RemoteCommand.isToolTermination e = false)
    (t : RemoteCommand.CmdToolCommandTermination)
    (rest : List RemoteCommand.ControllerToCmdToolEvent) :
    RemoteCommand.toolReceiveLoop ⟨[], []⟩
        (pre ++ .commandTermination t :: rest)
      = .exit t.exitCode
          { stdout := RemoteCommand.toolStdout pre,
            stderr := RemoteCommand.toolStderr pre ++
              (if 0 < t.message.length then strBytes t.message ++ [10]
               else []) } := by
  have h := toolReceiveLoop_split pre t rest hpre ⟨[], []⟩
  simpa using h

/-- C9 witness: frames `CommandData{STDOUT, "hi\n"}`, the two closed frames,
then `CommandTermination{127, "oops"}`: the tool's stdout holds the `hi`
bytes, its stderr the message and a newline, and the exit code is 127. -/
theorem C9_tool_exit_code_witness :
    RemoteCommand.toolReceiveLoop ⟨[], []⟩
        ([.commandData ⟨[104, 105, 10], .STDOUT, false⟩,
          .commandData ⟨[], .STDOUT, true⟩,
          .commandData ⟨[], .STDERR, true⟩]
          ++ .commandTermination ⟨127, "oops"⟩ :: [])
      = .exit 127
          { stdout := RemoteCommand.toolStdout
              [.commandData ⟨[104, 105, 10], .STDOUT, false⟩,
               .commandData ⟨[], .STDOUT, true⟩,
               .commandData ⟨[], .STDERR, true⟩],
            stderr := RemoteCommand.toolStderr
              [.commandData ⟨[104, 105, 10], .STDOUT, false⟩,
               .commandData ⟨[], .STDOUT, true⟩,
               .commandData ⟨[], .STDERR, true⟩] ++
              (if 0 < ("oops" : String).length then strBytes "oops" ++ [10]
               else []) } :=
  C9_tool_exit_code_and_routing
    [.commandData ⟨[104, 105, 10], .STDOUT, false⟩,
     .commandData ⟨[], .STDOUT, true⟩,
     .commandData ⟨[], .STDERR, true⟩]
    (by decide) ⟨127, "oops"⟩ []

namespace Agent

/-- The last element of a list, when it exists, is a member. -/
theorem mem_of_getLast_eq {α : Type} {l : List α} {a : α}
    (h : l.getLast? = some a) : a ∈ l := by
  have h2 := List.mem_getLast?_eq_getLast (l := l) (x := a) (by rw [h]; rfl)
  obtain ⟨hne, rfl⟩ := h2
  exact List.getLast_mem hne

/-- Prepending to a non-empty list keeps its last element. -/
theorem getLast_cons_ne_nil {α : Type} (a : α) {l : List α} (h : l ≠ []) :
    (a :: l).getLast? = l.getLast? := by
  cases l with
  | nil => exact absurd rfl h
  | cons b bs => exact List.getLast?_cons_cons

/-- A merge of two lists counts any predicate like their concatenation. -/
theorem Merge_countP {α : Type} (p : α → Bool) {xs ys zs : List α}
    (h : Merge xs ys zs) : zs.countP p = xs.countP p + ys.countP p := by
  induction h with
  | nil => rfl
  | left h ih =>
      rename_i x xs ys zs
      cases hpx : p x <;> (simp [List.countP_cons, hpx, ih]; try omega)
  | right h ih =>
      rename_i y xs ys zs
      cases hpy : p y <;> (simp [List.countP_cons, hpy, ih]; try omega)

/-- The last element of a merge is the last element of one of the merged
lists. -/
theorem Merge_getLast {α : Type} {xs ys zs : List α} (h : Merge xs ys zs) :
    zs.getLast? = xs.getLast? ∨ zs.getLast? = ys.getLast? := by
  induction h with
  | nil => left; rfl
  | left h ih =>
      rename_i x xs ys zs
      cases zs with
      | nil =>
          cases h
          left; rfl
      | cons z zs2 =>
          rw [List.getLast?_cons_cons]
          rcases ih with h1 | h1
          · left
            cases xs with
            | nil => simp at h1
            | cons a as => rw [List.getLast?_cons_cons]; exact h1
          · right; exact h1
  | right h ih =>
      rename_i y xs ys zs
      cases zs with
      | nil =>
          cases h
          right; rfl
      | cons z zs2 =>
          rw [List.getLast?_cons_cons]
          rcases ih with h1 | h1
          · left; exact h1
          · right
            cases ys with
            | nil => simp at h1
            | cons a as => rw [List.getLast?_cons_cons]; exact h1

/-- An `outputSender` stream is never empty. -/
theorem outputSender_ne_nil (ch : Tunnel.ChannelDirection) (reads : List Bytes)
    (ending : ReadEnd) : outputSender ch reads ending ≠ [] := by
  cases reads <;> simp [outputSender]

/-- An `outputSender` stream ends with its single closed message. -/
theorem outputSender_getLast (ch : Tunnel.ChannelDirection) (reads : List Bytes)
    (ending : ReadEnd) :
    (outputSender ch reads ending).getLast? = some ⟨ch, [], true⟩ := by
  induction reads with
  | nil => rfl
  | cons b rest ih =>
      rw [outputSender, getLast_cons_ne_nil _ (outputSender_ne_nil ch rest ending)]
      exact ih

/-- An `outputSender` stream holds exactly one closed message. -/
theorem outputSender_countP_closed (ch : Tunnel.ChannelDirection)
    (reads : List Bytes) (ending : ReadEnd) :
    (outputSender ch reads ending).countP (fun m => m.closed) = 1 := by
  induction reads with
  | nil => simp [outputSender, List.countP_cons]
  | cons b rest ih => simp [outputSender, List.countP_cons, ih]

/-- Closed messages of an `outputSender` stream, counted per channel. -/
theorem outputSender_countP_channel (ch ch2 : Tunnel.ChannelDirection)
    (reads : List Bytes) (ending : ReadEnd) :
    (outputSender ch reads ending).countP
        (fun m => m.closed && (m.channel == ch2))
      = if ch == ch2 then 1 else 0 := by
  induction reads with
  | nil => cases hc : ch == ch2 <;> simp [outputSender, List.countP_cons, hc]
  | cons b rest ih => simp [outputSender, List.countP_cons, ih]

/-- The loop with enough closed messages, the last of which closes the list:
it forwards every message and returns. -/
theorem runCommandLoop_complete (req : Tunnel.CommandRequest) :
    ∀ (msgs : List outputMessage) (n : Nat),
      msgs.countP (fun m => m.closed) = n →
      (∃ m, msgs.getLast? = some m ∧ m.closed = true) →
      0 < n →
      runCommandLoop req n msgs = some (msgs.map (frameOf req)) := by
  intro msgs
  induction msgs with
  | nil =>
      intro n _ h2 _
      obtain ⟨m, hm, _⟩ := h2
      simp at hm
  | cons msg rest ih =>
      intro n hcount hlast hpos
      rw [List.countP_cons] at hcount
      cases hc : msg.closed with
      | true =>
          simp only [hc, if_true, if_pos] at hcount
          by_cases hn1 : n = 1
          · have hrest : rest = [] := by
              cases hrx : rest with
              | nil => rfl
              | cons r rs =>
                  exfalso
                  obtain ⟨m, hm, hmc⟩ := hlast
                  rw [hrx, List.getLast?_cons_cons] at hm
                  have hpos2 : 0 < (r :: rs).countP (fun m => m.closed) :=
                    List.countP_pos_iff.mpr ⟨m, mem_of_getLast_eq hm, hmc⟩
                  rw [← hrx] at hpos2
                  omega
            subst hrest
            subst hn1
            simp [runCommandLoop, hc, frameOf]
          · have hlast2 : ∃ m, rest.getLast? = some m ∧ m.closed = true := by
              cases hrx : rest with
              | nil =>
                  exfalso
                  rw [hrx] at hcount
                  simp at hcount
                  omega
              | cons r rs =>
                  obtain ⟨m, hm, hmc⟩ := hlast
                  rw [hrx, List.getLast?_cons_cons] at hm
                  exact ⟨m, hm, hmc⟩
            have hrec := ih (n - 1) (by omega) hlast2 (by omega)
            simp [runCommandLoop, hc, hn1, hrec, frameOf]
      | false =>
          simp [hc] at hcount
          have hcr : rest.countP (fun m => m.closed) = n := by omega
          have hlast2 : ∃ m, rest.getLast? = some m ∧ m.closed = true := by
            cases hrx : rest with
            | nil =>
                exfalso
                rw [hrx] at hcr
                simp at hcr
                omega
            | cons r rs =>
                obtain ⟨m, hm, hmc⟩ := hlast
                rw [hrx, List.getLast?_cons_cons] at hm
                exact ⟨m, hm, hmc⟩
          have hrec := ih n hcr hlast2 hpos
          simp [runCommandLoop, hc, hrec, frameOf]

end Agent

/-- A forwarded loop frame is a closed `CommandData` for a channel exactly
when the message was closed on that channel. -/
theorem isClosedFrameFor_frameOf (req : Tunnel.CommandRequest)
    (ch2 : Tunnel.ChannelDirection) (m : Agent.outputMessage) :
    isClosedFrameFor ch2 (Agent.frameOf req m)
      = (m.closed && (m.channel == ch2)) := by
  cases hm : m.closed <;>
    simp [Agent.frameOf, isClosedFrameFor, Agent.makeCommandDataClosed,
          Agent.makeCommandData, hm]

/-- A forwarded loop frame is never a `CommandTermination`. -/
theorem isTerminationFrame_frameOf (req : Tunnel.CommandRequest)
    (m : Agent.outputMessage) :
    isTerminationFrame (Agent.frameOf req m) = false := by
  cases hm : m.closed <;>
    simp [Agent.frameOf, isTerminationFrame, Agent.makeCommandDataClosed,
          Agent.makeCommandData, hm]

/-- The wait frame is a `CommandTermination` for every wait outcome. -/
theorem isTerminationFrame_waitFrame (req : Tunnel.CommandRequest)
    (wait : Agent.WaitResult) :
    isTerminationFrame (Agent.waitFrame req wait) = true := by
  cases wait with
  | ok => rfl
  | exitErr s => cases s <;> rfl
  | otherErr e => rfl

/-- The wait frame is never a closed `CommandData`. -/
theorem isClosedFrameFor_waitFrame (req : Tunnel.CommandRequest)
    (ch : Tunnel.ChannelDirection) (wait : Agent.WaitResult) :
    isClosedFrameFor ch (Agent.waitFrame req wait) = false := by
  cases wait with
  | ok => rfl
  | exitErr s => cases s <;> rfl
  | otherErr e => rfl

/-- C7: for every successfully started process — whatever interleaving the
aggregation channel delivers of the two reader streams, and whatever the wait
outcome — the frame sequence `runCommand` emits contains exactly one
`CommandData{closed=true}` for STDOUT and exactly one for STDERR, both in the
prefix before the last frame; the single `CommandTermination` is that last
frame, so it is never emitted before both closed frames. -/
theorem C7_closed_frames_precede_termination
    (req : Tunnel.CommandRequest)
    (souts serrs : List Bytes) (eo ee : Agent.ReadEnd)
    (agg : List Agent.outputMessage)
    (hm : Agent.Merge (Agent.outputSender .STDOUT souts eo)
            (Agent.outputSender .STDERR serrs ee) agg)
    (wait : Agent.WaitResult) :
    ∃ frames : List Tunnel.AgentToControllerEvent,
      Agent.runCommand req .started agg wait = some frames ∧
      frames.countP (isClosedFrameFor .STDOUT) = 1 ∧
      frames.countP (isClosedFrameFor .STDERR) = 1 ∧
      frames.countP isTerminationFrame = 1 ∧
      frames.getLast? = some (Agent.waitFrame req wait) ∧
      isTerminationFrame (Agent.waitFrame req wait) = true ∧
      frames.dropLast.countP isTerminationFrame = 0 ∧
      frames.dropLast.countP (isClosedFrameFor .STDOUT) = 1 ∧
      frames.dropLast.countP (isClosedFrameFor .STDERR) = 1 := by
  have hcount : agg.countP (fun m => m.closed) = 2 := by
    rw [Agent.Merge_countP _ hm, Agent.outputSender_countP_closed,
        Agent.outputSender_countP_closed]
  have hlast : ∃ m, agg.getLast? = some m ∧ m.closed = true := by
    rcases Agent.Merge_getLast hm with h1 | h1
    · exact ⟨_, h1.trans (Agent.outputSender_getLast _ _ _), rfl⟩
    · exact ⟨_, h1.trans (Agent.outputSender_getLast _ _ _), rfl⟩
  have hloop := Agent.runCommandLoop_complete req agg 2 hcount hlast (by omega)
  have hmapO : (agg.map (Agent.frameOf req)).countP
      (isClosedFrameFor .STDOUT) = 1 := by
    rw [List.countP_map]
    have hfun : (isClosedFrameFor Tunnel.ChannelDirection.STDOUT ∘
        Agent.frameOf req) = fun m : Agent.outputMessage =>
          (m.closed && (m.channel == Tunnel.ChannelDirection.STDOUT)) := by
      funext m
      simp [Function.comp, isClosedFrameFor_frameOf]
    rw [hfun, Agent.Merge_countP _ hm, Agent.outputSender_countP_channel,
        Agent.outputSender_countP_channel]
    decide
  have hmapE : (agg.map (Agent.frameOf req)).countP
      (isClosedFrameFor .STDERR) = 1 := by
    rw [List.countP_map]
    have hfun : (isClosedFrameFor Tunnel.ChannelDirection.STDERR ∘
        Agent.frameOf req) = fun m : Agent.outputMessage =>
          (m.closed && (m.channel == Tunnel.ChannelDirection.STDERR)) := by
      funext m
      simp [Function.comp, isClosedFrameFor_frameOf]
    rw [hfun, Agent.Merge_countP _ hm, Agent.outputSender_countP_channel,
        Agent.outputSender_countP_channel]
    decide
  have hmapT : (agg.map (Agent.frameOf req)).countP isTerminationFrame = 0 := by
    rw [List.countP_map]
    apply List.countP_eq_zero.mpr
    intro a _
    simp [Function.comp, isTerminationFrame_frameOf]
  refine ⟨agg.map (Agent.frameOf req) ++ [Agent.waitFrame req wait],
          ?_, ?_, ?_, ?_, ?_, ?_, ?_, ?_, ?_⟩
  · simp [Agent.runCommand, hloop]
  · rw [List.countP_append, hmapO]
    simp [List.countP_cons, isClosedFrameFor_waitFrame]
  · rw [List.countP_append, hmapE]
    simp [List.countP_cons, isClosedFrameFor_waitFrame]
  · rw [List.countP_append, hmapT]
    simp [List.countP_cons, isTerminationFrame_waitFrame]
  · exact List.getLast?_concat _
  · exact isTerminationFrame_waitFrame req wait
  · rw [List.dropLast_concat]
    exact hmapT
  · rw [List.dropLast_concat]
    exact hmapO
  · rw [List.dropLast_concat]
    exact hmapE

/-- C7 witness: the process writes `hi` on stdout, stdout closes, stderr
closes, and the process exits 0: both closed frames precede the single final
termination. -/
theorem C7_closed_frames_witness :
    ∃ frames : List Tunnel.AgentToControllerEvent,
      Agent.runCommand ⟨"r1", "echo", ["hi"], []⟩ .started
          [⟨.STDOUT, [104, 105], false⟩, ⟨.STDOUT, [], true⟩,
           ⟨.STDERR, [], true⟩] .ok
        = some frames ∧
      frames.countP (isClosedFrameFor .STDOUT) = 1 ∧
      frames.countP (isClosedFrameFor .STDERR) = 1 ∧
      frames.countP isTerminationFrame = 1 ∧
      frames.getLast? = some (Agent.waitFrame ⟨"r1", "echo", ["hi"], []⟩ .ok) ∧
      isTerminationFrame (Agent.waitFrame ⟨"r1", "echo", ["hi"], []⟩ .ok) = true ∧
      frames.dropLast.countP isTerminationFrame = 0 ∧
      frames.dropLast.countP (isClosedFrameFor .STDOUT) = 1 ∧
      frames.dropLast.countP (isClosedFrameFor .STDERR) = 1 :=
  C7_closed_frames_precede_termination ⟨"r1", "echo", ["hi"], []⟩
    [[104, 105]] [] .eof .eof
    [⟨.STDOUT, [104, 105], false⟩, ⟨.STDOUT, [], true⟩, ⟨.STDERR, [], true⟩]
    (Agent.Merge.left (Agent.Merge.left (Agent.Merge.right Agent.Merge.nil)))
    .ok

end OesBirger
